import Mathlib

/-!
Shallow embedding of the module specifier resolution pipeline of
`typescript-deno-plugin` (src/index.ts).

JavaScript strings are modelled as lists of characters (`JSString`); all the
source inputs of interest are ASCII, where JS UTF-16 code-unit indices and
character indices agree.  JS `undefined`-or-string values are `Option JSString`.
Functions whose JS originals can fail to terminate are embedded so that a
`none` result marks the diverging executions (see the doc comments of
`gmwqsLoop` and `fallbackHeader`).
-/

abbrev JSString := List Char

/-- The character list of a Lean string literal, standing for a JS string. -/
def jsStr (s : String) : JSString := s.data

/-- JS `s.endsWith(suffix)`. -/
def jsEndsWith (s suffix : JSString) : Bool := List.isSuffixOf suffix s

/-- JS `s.startsWith(prefixStr)`. -/
def jsStartsWith (s pre : JSString) : Bool := List.isPrefixOf pre s

/-- JS `s.indexOf(c)`: `none` stands for the JS result `-1`. -/
def jsIndexOfChar (c : Char) : JSString → Option Nat
  | [] => none
  | d :: rest => if d = c then some 0 else (jsIndexOfChar c rest).map (fun n => n + 1)

/-- JS truthiness of a `string | undefined` value: defined and nonempty. -/
def jsTruthy : Option JSString → Bool
  | none => false
  | some s => !s.isEmpty

/-- JS `s.replace(pat, rep)` with a string pattern: replaces the first
occurrence of `pat` only, identity when `pat` does not occur. -/
def jsReplaceFirst (pat rep : JSString) : JSString → JSString
  | [] => if List.isPrefixOf pat ([] : JSString) then rep else []
  | c :: rest =>
    if List.isPrefixOf pat (c :: rest) then rep ++ (c :: rest).drop pat.length
    else c :: jsReplaceFirst pat rep rest

/-- The loop of `getModuleWithQueryString` (src/index.ts lines 204-209):

    for (const index = name.indexOf("?"); index !== -1; name = name.substring(index + 1)) {
      if (name.substring(0, index).endsWith(".ts")) {
        const cutLength = moduleName.length - name.length;
        return moduleName.substring(0, index + cutLength);
      }
    }

`index` is declared with `const`, so it is computed once from the original
string and never updated; the loop guard `index !== -1` is therefore constant.
Once entered (`index` is a `Nat` here), the loop either returns, or shrinks
`name` by `index + 1 >= 1` characters per iteration, or - once `name` is empty
and the `.ts` test fails (which it always does on the empty string) - repeats
the empty state forever.  That last situation is the only way the JS loop can
run forever, and it is mapped to the result `none`.  The `fuel` argument is a
loop bound initialised to `moduleName.length` by the caller; since every
iteration consumes at least one character of the nonempty `name`, fuel is never
exhausted with `name` nonempty, so the `| 0` fallthrough to `none` is
unreachable from the entry point and `none` means exactly "the JS loop never
terminates".  Results: `some (some r)` = the loop returned `r`; `some none`
would be "fell out of the loop", which cannot happen once entered. -/
def gmwqsLoop (moduleName : JSString) (index : Nat) : Nat → JSString → Option (Option JSString)
  | 0, name =>
    if jsEndsWith (name.take index) (jsStr ".ts") then
      some (some (moduleName.take (index + (moduleName.length - name.length))))
    else none
  | fuel + 1, name =>
    if jsEndsWith (name.take index) (jsStr ".ts") then
      some (some (moduleName.take (index + (moduleName.length - name.length))))
    else if name.isEmpty then none
    else gmwqsLoop moduleName index fuel (name.drop (index + 1))

/-- `getModuleWithQueryString` (src/index.ts lines 202-210).  `some none` is
the JS result `undefined` (no `?` in the specifier, the loop is never
entered); `some (some r)` is a returned string; `none` marks the diverging
executions of the loop described at `gmwqsLoop`. -/
def getModuleWithQueryString (moduleName : JSString) : Option (Option JSString) :=
  match jsIndexOfChar '?' moduleName with
  | none => some none
  | some index => gmwqsLoop moduleName index moduleName.length moduleName

/-- `stripExtNameDotTs` (src/index.ts lines 212-226).  `none` propagates the
divergence of `getModuleWithQueryString`; otherwise the JS code runs
`if (moduleWithQuery) return moduleWithQuery;` (truthiness: defined and
nonempty), then strips a trailing `".ts"` via `slice(0, -3)`. -/
def stripExtNameDotTs (moduleName : JSString) : Option JSString :=
  match getModuleWithQueryString moduleName with
  | none => none
  | some moduleWithQuery =>
    if jsTruthy moduleWithQuery then moduleWithQuery
    else if !(jsEndsWith moduleName (jsStr ".ts")) then some moduleName
    else some (moduleName.take (moduleName.length - 3))

/-- `IDenoModuleHeaders` (src/index.ts lines 242-245): the parsed contents of a
`.headers.json` sidecar file. -/
structure IDenoModuleHeaders where
  mime_type : JSString
  redirect_to : JSString

/-- The filesystem state the redirect resolver consults.  `existsSync` is
`fs.existsSync`; `headersAt p` is the value of
`JSON.parse(fs.readFileSync(p))` for a sidecar path `p`, consulted by the code
only after `existsSync p` returned `true`. -/
structure FileSystem where
  existsSync : JSString → Bool
  headersAt : JSString → IDenoModuleHeaders

/-- The local `validPath` of `fallbackHeader` (src/index.ts line 251):
the module path with a `".ts"` suffix appended when not already present. -/
def validPathOf (modulePath : JSString) : JSString :=
  if jsEndsWith modulePath (jsStr ".ts") then modulePath else modulePath ++ jsStr ".ts"

/-- Modelled from the spec: `path.resolve(denoDir, "deps", m)` of
src/index.ts line 235, where `denoDir` comes from `getDenoDir()` in
`./shared` - a file that is not among the sources, whose result the spec
describes as an externally supplied, opaque root directory; it is therefore a
parameter here.  The spec (§4.4) words the transformation as "resolve the
result under `<DenoDir>/deps/`"; for an absolute `denoDir` and the
scheme-relative `m` produced by replacing `"://"` this is plain
separator-joining. -/
def pathResolveDeps (denoDir m : JSString) : JSString :=
  denoDir ++ jsStr "/deps/" ++ m

/-- `fallbackHeader` (src/index.ts lines 250-266), with the body of its
mutual-recursion partner `convertRemoteToLocalCache` (lines 228-240) inlined
at the recursive call (the wrapper `convertRemoteToLocalCache` below is
definitionally that inlined branch).  The recursion follows `redirect_to`
sidecar chains and has no bound in the source, so it is indexed by `fuel`;
`none` means the chain (or the specifier normalizer on a `redirect_to` value)
did not finish within `fuel` nested resolution steps - in particular, if the
result is `none` for every fuel, the JS recursion never terminates. -/
def fallbackHeader : Nat → FileSystem → JSString → JSString → Option JSString
  | 0, _, _, _ => none
  | fuel + 1, fs, denoDir, modulePath =>
    if fs.existsSync (validPathOf modulePath) then some modulePath
    else if fs.existsSync (validPathOf modulePath ++ jsStr ".headers.json") then
      match stripExtNameDotTs
          (fs.headersAt (validPathOf modulePath ++ jsStr ".headers.json")).redirect_to with
      | none => none
      | some stripped =>
        if !(jsStartsWith stripped (jsStr "http://"))
            && !(jsStartsWith stripped (jsStr "https://")) then
          some stripped
        else
          fallbackHeader fuel fs denoDir
            (pathResolveDeps denoDir (jsReplaceFirst (jsStr "://") (jsStr "/") stripped))
    else some modulePath

/-- `convertRemoteToLocalCache` (src/index.ts lines 228-240): identity on
non-remote specifiers, otherwise maps the specifier under
`<denoDir>/deps/` and hands it to `fallbackHeader`. -/
def convertRemoteToLocalCache (fuel : Nat) (fs : FileSystem)
    (denoDir moduleName : JSString) : Option JSString :=
  if !(jsStartsWith moduleName (jsStr "http://"))
      && !(jsStartsWith moduleName (jsStr "https://")) then
    some moduleName
  else
    fallbackHeader fuel fs denoDir
      (pathResolveDeps denoDir (jsReplaceFirst (jsStr "://") (jsStr "/") moduleName))

/-- Modelled from the spec: one step of the §4.5 Redirect Resolver algorithm,
with the recursive re-resolution ("apply Specifier Normalizer then Remote
Cache Mapper to `redirect_to` and recurse") passed as the continuation
`reResolve`.  Used to state that `fallbackHeader` implements §4.5. -/
def specRedirectStep (fs : FileSystem) (cachePath : JSString)
    (reResolve : JSString → Option JSString) : Option JSString :=
  let candidate :=
    if jsEndsWith cachePath (jsStr ".ts") then cachePath else cachePath ++ jsStr ".ts"
  if fs.existsSync candidate then some cachePath
  else if fs.existsSync (candidate ++ jsStr ".headers.json") then
    match stripExtNameDotTs (fs.headersAt (candidate ++ jsStr ".headers.json")).redirect_to with
    | none => none
    | some target => reResolve target
  else some cachePath

/-- `fallbackHeader` diverges on this input: no recursion depth suffices. -/
def fallbackHeaderDiverges (fs : FileSystem) (denoDir modulePath : JSString) : Prop :=
  ∀ fuel, fallbackHeader fuel fs denoDir modulePath = none

/-- The key scan of the substitution closure returned by
`makeTransformFromImportMap` (src/index.ts lines 184-193): walk the keys of
the `imports` object in order; on the first key that is a prefix of the
specifier, replace it by its value and keep the rest of the specifier. -/
def importMapScan (moduleName : JSString) : List (JSString × JSString) → JSString
  | [] => moduleName
  | (key, value) :: rest =>
    if jsStartsWith moduleName key then value ++ moduleName.drop key.length
    else importMapScan moduleName rest

/-- The substitution closure returned by `makeTransformFromImportMap`
(src/index.ts lines 180-195) when an import map is configured, as a function
of the `imports` object of that map.  `Object.keys` of a JSON-parsed object
yields the keys in document order for the (non-integer-like) specifier-prefix
keys an import map holds, so `imports` is an association list in document
order. -/
def transformFromImportMap (imports : List (JSString × JSString))
    (moduleName : JSString) : JSString :=
  importMapScan moduleName imports

/-- The result of `JSON.parse` on an import-map file: a JSON document that may
or may not carry an `imports` member.  The code casts it to `IImportMap`
without validation, so the member is optional here. -/
structure ParsedImportMap where
  importsField : Option (List (JSString × JSString))

/-- The module-level `importMapCache` (src/index.ts line 16) together with an
allocation counter.  Each `JSON.parse` call creates a fresh JS object; `entries`
maps a cache key to the identity (`Nat` tag) and value of the object stored
for it, and `nextId` is the identity the next parse will allocate, so
"reference-equal" is "same tag" and a parse happened exactly when `nextId`
grew. -/
structure ImportMapCacheState where
  entries : List (JSString × (Nat × ParsedImportMap))
  nextId : Nat

/-- The external effects used by `getImportMap`: `fs.statSync` (which throws -
`none` here - when the file is missing, and otherwise yields `mtimeMs`,
modelled as the string the template literal renders it to), `fs.readFileSync`,
and `JSON.parse` (`none` = SyntaxError on invalid JSON). -/
structure ImportMapEnv where
  statMtime : JSString → Option JSString
  readFile : JSString → JSString
  parseImportMap : JSString → Option ParsedImportMap

/-- The error taxonomy of the spec (§4.1/§7) for the Import Map Store. -/
inductive ImportMapError
  | NotFoundError
  | ParseError

/-- The template literal ``` `${filePath}-${fileStats.mtimeMs}` ``` of
src/index.ts line 151. -/
def importMapCacheKey (filePath mtime : JSString) : JSString :=
  filePath ++ jsStr "-" ++ mtime

/-- `getImportMap` (src/index.ts lines 149-165): stat the file (missing file
throws), build the cache key, serve a cached parse when present, otherwise
read, parse (invalid JSON throws) and cache.  Returns the identity tag and
value of the served object together with the updated cache state. -/
def getImportMap (env : ImportMapEnv) (st : ImportMapCacheState) (filePath : JSString) :
    Except ImportMapError (Nat × ParsedImportMap × ImportMapCacheState) :=
  match env.statMtime filePath with
  | none => Except.error ImportMapError.NotFoundError
  | some mtime =>
    match List.lookup (importMapCacheKey filePath mtime) st.entries with
    | some entry => Except.ok (entry.1, entry.2, st)
    | none =>
      match env.parseImportMap (env.readFile filePath) with
      | none => Except.error ImportMapError.ParseError
      | some parsed =>
        Except.ok (st.nextId, parsed,
          ⟨st.entries ++ [(importMapCacheKey filePath mtime, (st.nextId, parsed))],
           st.nextId + 1⟩)

/-- A filesystem with no files at all: every existence check fails. -/
def emptyFS : FileSystem := ⟨fun _ => false, fun _ => ⟨[], []⟩⟩

/-- A filesystem where every existence check succeeds. -/
def allFS : FileSystem := ⟨fun _ => true, fun _ => ⟨[], []⟩⟩

/-- A filesystem whose single sidecar file redirects
`/d/deps/https/h/m` back to itself: `redirect_to` is `https://h/m.ts`,
which normalizes to `https://h/m` and cache-maps to `/d/deps/https/h/m`
again (with DenoDir `/d`). -/
def cycleFS : FileSystem :=
  ⟨fun q => q == jsStr "/d/deps/https/h/m.ts.headers.json",
   fun _ => ⟨jsStr "application/typescript", jsStr "https://h/m.ts"⟩⟩

/-- The §8 redirect-following scenario: no file at the old cache path, a
sidecar there redirecting to `https://deno.land/x/new/mod.ts`, and the
redirect target physically present in the cache. -/
def redirectFS : FileSystem :=
  ⟨fun q => (q == jsStr "/home/u/.deno/deps/https/deno.land/x/new/mod.ts")
      || (q == jsStr "/home/u/.deno/deps/https/old/mod.ts.headers.json"),
   fun _ => ⟨jsStr "application/typescript", jsStr "https://deno.land/x/new/mod.ts"⟩⟩

/-- A sidecar whose `redirect_to` is the non-remote `mod.js?x=1`, on which the
specifier normalizer's query loop diverges. -/
def queryBugFS : FileSystem :=
  ⟨fun q => q == jsStr "/d/deps/https/h/x.ts.headers.json",
   fun _ => ⟨jsStr "application/javascript", jsStr "mod.js?x=1"⟩⟩

/-- A sidecar whose `redirect_to` is the non-remote, query-free `./x.ts`. -/
def localRedirectFS : FileSystem :=
  ⟨fun q => q == jsStr "/p.ts.headers.json",
   fun _ => ⟨jsStr "application/typescript", jsStr "./x.ts"⟩⟩

/-- An import-map environment whose file parses to valid JSON that lacks an
`imports` member. -/
def noImportsEnv : ImportMapEnv :=
  ⟨fun _ => some (jsStr "1"), fun _ => jsStr "valid json, no imports member",
   fun _ => some ⟨none⟩⟩

/-- An import-map environment with no file at any path. -/
def missingFileEnv : ImportMapEnv :=
  ⟨fun _ => none, fun _ => [], fun _ => none⟩

/-- An import-map environment whose file exists but holds invalid JSON. -/
def badJsonEnv : ImportMapEnv :=
  ⟨fun _ => some (jsStr "1"), fun _ => jsStr "not json at all", fun _ => none⟩

/-- An import-map environment: `a.json` present with mtime `100`. -/
def mtime100Env : ImportMapEnv :=
  ⟨fun q => if q == jsStr "a.json" then some (jsStr "100") else none,
   fun _ => jsStr "same content", fun _ => some ⟨some []⟩⟩

/-- The same file and content as `mtime100Env`, but touched: mtime `200`. -/
def mtime200Env : ImportMapEnv :=
  ⟨fun q => if q == jsStr "a.json" then some (jsStr "200") else none,
   fun _ => jsStr "same content", fun _ => some ⟨some []⟩⟩

theorem gmwqsLoop_result_take (m : JSString) (i : Nat) :
    ∀ fuel name r, gmwqsLoop m i fuel name = some (some r) → ∃ k, r = m.take k := by
  intro fuel
  induction fuel with
  | zero =>
    intro name r h
    unfold gmwqsLoop at h
    split at h
    · exact ⟨_, (Option.some.inj (Option.some.inj h)).symm⟩
    · exact absurd h (by simp)
  | succ n ih =>
    intro name r h
    unfold gmwqsLoop at h
    split at h
    · exact ⟨_, (Option.some.inj (Option.some.inj h)).symm⟩
    · split at h
      · exact absurd h (by simp)
      · exact ih _ _ h

theorem stripExtNameDotTs_prefix {m r : JSString}
    (h : stripExtNameDotTs m = some r) : r <+: m := by
  cases hq : getModuleWithQueryString m with
  | none =>
    simp only [stripExtNameDotTs, hq] at h
    exact absurd h (by simp)
  | some mwq =>
    simp only [stripExtNameDotTs, hq] at h
    by_cases ht : jsTruthy mwq = true
    · rw [if_pos ht] at h
      cases mwq with
      | none => exact absurd h (by simp)
      | some s =>
        obtain rfl : s = r := Option.some.inj h
        unfold getModuleWithQueryString at hq
        cases hidx : jsIndexOfChar '?' m with
        | none => rw [hidx] at hq; exact absurd hq (by simp)
        | some i =>
          rw [hidx] at hq
          obtain ⟨k, hk⟩ := gmwqsLoop_result_take m i m.length m s hq
          exact hk ▸ List.take_prefix k m
    · rw [if_neg ht] at h
      split at h
      · obtain rfl := Option.some.inj h
        exact List.prefix_refl _
      · obtain rfl := Option.some.inj h
        exact List.take_prefix _ m

theorem jsStartsWith_false_of_prefix {r m pre : JSString} (hp : r <+: m)
    (hm : jsStartsWith m pre = false) : jsStartsWith r pre = false := by
  cases hb : jsStartsWith r pre with
  | false => rfl
  | true =>
    exfalso
    have h1 : pre <+: r := List.isPrefixOf_iff_prefix.mp hb
    have h2 : pre <+: m := h1.trans hp
    rw [jsStartsWith, List.isPrefixOf_iff_prefix.mpr h2] at hm
    exact absurd hm (by simp)

/-- One unfolding of the self-redirecting chain of `cycleFS`: resolving the
cycling cache path consumes one unit of fuel and returns to the same state. -/
theorem cycleFS_step (n : Nat) :
    fallbackHeader (n + 1) cycleFS (jsStr "/d") (jsStr "/d/deps/https/h/m")
      = fallbackHeader n cycleFS (jsStr "/d") (jsStr "/d/deps/https/h/m") := rfl

theorem lookup_append_of_none {α β : Type} [BEq α] {k : α} :
    ∀ (l₁ l₂ : List (α × β)), List.lookup k l₁ = none →
      List.lookup k (l₁ ++ l₂) = List.lookup k l₂ := by
  intro l₁
  induction l₁ with
  | nil => intro l₂ _; rfl
  | cons e rest ih =>
    intro l₂ h
    obtain ⟨a, b⟩ := e
    simp only [List.cons_append, List.lookup] at h ⊢
    cases hk : k == a with
    | true => rw [hk] at h; exact Option.noConfusion h
    | false => rw [hk] at h; exact ih l₂ h

theorem lookup_cons_self {α β : Type} [BEq α] [LawfulBEq α] (k : α) (b : β)
    (l : List (α × β)) : List.lookup k ((k, b) :: l) = some b := by
  simp [List.lookup]

theorem lookup_cons_ne {α β : Type} [BEq α] [LawfulBEq α] {k a : α} (hne : k ≠ a)
    (b : β) (l : List (α × β)) : List.lookup k ((a, b) :: l) = List.lookup k l := by
  simp only [List.lookup, beq_eq_false_iff_ne.mpr hne]

theorem importMapCacheKey_inj {p a b : JSString}
    (h : importMapCacheKey p a = importMapCacheKey p b) : a = b := by
  unfold importMapCacheKey at h
  rw [List.append_assoc, List.append_assoc] at h
  exact List.append_cancel_left (List.append_cancel_left h)

theorem importMapScan_no_match (m : JSString) :
    ∀ l, (∀ kv ∈ l, jsStartsWith m kv.1 = false) → importMapScan m l = m := by
  intro l
  induction l with
  | nil => intro _; rfl
  | cons kv rest ih =>
    intro h
    obtain ⟨k, v⟩ := kv
    simp only [importMapScan, h (k, v) (List.mem_cons_self _ _)]
    exact ih fun e he => h e (List.mem_cons_of_mem _ he)

theorem importMapScan_first_match (m k v : JSString) (hk : jsStartsWith m k = true) :
    ∀ pre suf, (∀ kv ∈ pre, jsStartsWith m kv.1 = false) →
      importMapScan m (pre ++ (k, v) :: suf) = v ++ m.drop k.length := by
  intro pre
  induction pre with
  | nil => intro suf _; simp [importMapScan, hk]
  | cons e rest ih =>
    intro suf h
    obtain ⟨a, b⟩ := e
    simp only [List.cons_append, importMapScan, h (a, b) (List.mem_cons_self _ _)]
    exact ih suf fun q hq => h q (List.mem_cons_of_mem _ hq)

/-- C1: the spec says the Specifier Normalizer is total and default-passthrough:
on a specifier containing `?` with no `.ts`-terminated segment before it,
`stripExtNameDotTs` should terminate and return the input unmodified.  The code
violates this: on `"mod.js?x=1"` the query loop never terminates (its `const`
index is never recomputed, and once `name` is empty the state repeats forever),
which the embedding renders as the result `none`. -/
theorem C1_normalizer_diverges_on_plain_query :
    stripExtNameDotTs (jsStr "mod.js?x=1") = none := by decide

/-- C2: the claim predicts `stripExtNameDotTs "mod.ts?x=1" = "mod.ts?x=1"`
(query kept); the code actually truncates at the query marker and yields
`"mod.ts"`, which differs from the input. -/
theorem C2_counterexample :
    stripExtNameDotTs (jsStr "mod.ts?x=1") = some (jsStr "mod.ts")
      ∧ jsStr "mod.ts" ≠ jsStr "mod.ts?x=1" := by decide

/-- C2 (amended): for the input `"mod.ts?x=1"` the normalizer yields
`"mod.ts"` - it truncates at the first query marker preceded by a
`.ts`-terminated segment, discarding the query - and plain `"mod.ts"`
yields `"mod"`. -/
theorem C2_concrete_normalizations :
    stripExtNameDotTs (jsStr "mod.ts?x=1") = some (jsStr "mod.ts")
      ∧ stripExtNameDotTs (jsStr "mod.ts") = some (jsStr "mod") := by decide

/-- C3: the claim says `fallbackHeader` terminates on every filesystem state,
including sidecar redirect cycles.  It does not: with DenoDir `/d` and the
self-redirecting sidecar of `cycleFS`, no recursion depth resolves the path
`/d/deps/https/h/m`, i.e. the JS recursion never terminates. -/
theorem C3_counterexample :
    fallbackHeaderDiverges cycleFS (jsStr "/d") (jsStr "/d/deps/https/h/m") := by
  intro fuel
  induction fuel with
  | zero => rfl
  | succ n ih => exact (cycleFS_step n).trans ih

/-- C3 (amended): `fallbackHeader` is no-failure in the non-recursive cases -
whenever the candidate file exists, or no sidecar exists, it terminates in one
step and returns its input path unchanged - but it is not total: the recursion
has no depth bound, and on a filesystem state whose sidecar `redirect_to`
targets form a cycle it never terminates. -/
theorem C3_fallbackHeader_partial_totality :
    (∀ (fs : FileSystem) (denoDir p : JSString) (fuel : Nat),
        fs.existsSync (validPathOf p) = true →
        fallbackHeader (fuel + 1) fs denoDir p = some p)
    ∧ (∀ (fs : FileSystem) (denoDir p : JSString) (fuel : Nat),
        fs.existsSync (validPathOf p) = false →
        fs.existsSync (validPathOf p ++ jsStr ".headers.json") = false →
        fallbackHeader (fuel + 1) fs denoDir p = some p)
    ∧ fallbackHeaderDiverges cycleFS (jsStr "/d") (jsStr "/d/deps/https/h/m") := by
  refine ⟨?_, ?_, ?_⟩
  · intro fs denoDir p fuel h
    simp [fallbackHeader, h]
  · intro fs denoDir p fuel h1 h2
    simp [fallbackHeader, h1, h2]
  · intro fuel
    induction fuel with
    | zero => rfl
    | succ n ih => exact (cycleFS_step n).trans ih

/-- C3 witness: the two no-failure cases at concrete inputs - a filesystem
where every file exists, and one where none do. -/
theorem C3_witness :
    fallbackHeader 1 allFS (jsStr "/d") (jsStr "/a") = some (jsStr "/a")
      ∧ fallbackHeader 1 emptyFS (jsStr "/d") (jsStr "/a") = some (jsStr "/a") :=
  ⟨C3_fallbackHeader_partial_totality.1 allFS (jsStr "/d") (jsStr "/a") 0 (by decide),
   C3_fallbackHeader_partial_totality.2.1 emptyFS (jsStr "/d") (jsStr "/a") 0
     (by decide) (by decide)⟩

/-- C4: `fallbackHeader` behaves as the §4.5 Redirect Resolver algorithm -
one resolution step is exactly `specRedirectStep` with
`convertRemoteToLocalCache` as the recursive continuation - and, concretely, a
cache path with no direct `.ts` file whose sidecar holds
`redirect_to = "https://deno.land/x/new/mod.ts"` resolves to the cache-mapped
path of `https://deno.land/x/new/mod`. -/
theorem C4_fallbackHeader_matches_spec_algorithm :
    (∀ (fuel : Nat) (fs : FileSystem) (denoDir p : JSString),
        fallbackHeader (fuel + 1) fs denoDir p
          = specRedirectStep fs p (convertRemoteToLocalCache fuel fs denoDir))
    ∧ fallbackHeader 2 redirectFS (jsStr "/home/u/.deno")
        (jsStr "/home/u/.deno/deps/https/old/mod")
        = some (jsStr "/home/u/.deno/deps/https/deno.land/x/new/mod") :=
  ⟨fun _ _ _ _ => rfl, by decide⟩

/-- C7: the claim says the extension strip applies to the (possibly
query-truncated) specifier.  It does not: when the query loop fires, its
result is returned without extension stripping - on `"a.ts?x"` the code
yields `"a.ts"`, which still ends in `".ts"`, not the `"a"` the claim
predicts. -/
theorem C7_counterexample :
    stripExtNameDotTs (jsStr "a.ts?x") = some (jsStr "a.ts")
      ∧ jsEndsWith (jsStr "a.ts") (jsStr ".ts") = true
      ∧ jsStr "a.ts" ≠ jsStr "a" := by decide

/-- C7 (amended): the extension strip runs only when the query-split step did
not fire: when `getModuleWithQueryString` returns `undefined`, a trailing
`".ts"` (exactly three characters) is removed and any other specifier is
unchanged; when the query loop returns a nonempty string, that string is
returned with no extension strip.  Concretely `"foo/bar.ts"` yields
`"foo/bar"` and `"foo/bar.js"` is unchanged. -/
theorem C7_extension_strip :
    (∀ m, getModuleWithQueryString m = some none →
        stripExtNameDotTs m
          = some (if jsEndsWith m (jsStr ".ts") then m.take (m.length - 3) else m))
    ∧ (∀ m r, getModuleWithQueryString m = some (some r) → r.isEmpty = false →
        stripExtNameDotTs m = some r)
    ∧ stripExtNameDotTs (jsStr "foo/bar.ts") = some (jsStr "foo/bar")
    ∧ stripExtNameDotTs (jsStr "foo/bar.js") = some (jsStr "foo/bar.js") := by
  refine ⟨?_, ?_, by decide, by decide⟩
  · intro m h
    simp only [stripExtNameDotTs, h, jsTruthy]
    by_cases he : jsEndsWith m (jsStr ".ts") = true
    · simp [he]
    · simp [he]
  · intro m r h hr
    simp [stripExtNameDotTs, h, jsTruthy, hr]

/-- C7 witness: the two conditional cases at concrete inputs - `"x.ts"` has no
query marker and gets its extension stripped; on `"a.ts?b"` the query loop
returns `"a.ts"`, which is passed through. -/
theorem C7_witness :
    stripExtNameDotTs (jsStr "x.ts")
        = some (if jsEndsWith (jsStr "x.ts") (jsStr ".ts")
            then (jsStr "x.ts").take ((jsStr "x.ts").length - 3) else jsStr "x.ts")
      ∧ stripExtNameDotTs (jsStr "a.ts?b") = some (jsStr "a.ts") :=
  ⟨C7_extension_strip.1 (jsStr "x.ts") (by decide),
   C7_extension_strip.2.1 (jsStr "a.ts?b") (jsStr "a.ts") (by decide) (by decide)⟩

/-- C8: the Remote Cache Mapper.  A specifier starting with neither
`"http://"` nor `"https://"` is returned unchanged; a remote specifier has its
first `"://"` replaced by a path separator, is resolved under
`<denoDir>/deps/`, and is handed to the Redirect Resolver; concretely, with
DenoDir `/home/u/.deno` (and no cached files, so redirect resolution is the
identity), `https://deno.land/x/std/log/mod` maps to
`/home/u/.deno/deps/https/deno.land/x/std/log/mod`. -/
theorem C8_remote_cache_mapper :
    (∀ (fuel : Nat) (fs : FileSystem) (denoDir m : JSString),
        jsStartsWith m (jsStr "http://") = false →
        jsStartsWith m (jsStr "https://") = false →
        convertRemoteToLocalCache fuel fs denoDir m = some m)
    ∧ (∀ (fuel : Nat) (fs : FileSystem) (denoDir m : JSString),
        jsStartsWith m (jsStr "http://") = true ∨ jsStartsWith m (jsStr "https://") = true →
        convertRemoteToLocalCache fuel fs denoDir m
          = fallbackHeader fuel fs denoDir
              (pathResolveDeps denoDir (jsReplaceFirst (jsStr "://") (jsStr "/") m)))
    ∧ convertRemoteToLocalCache 1 emptyFS (jsStr "/home/u/.deno")
        (jsStr "https://deno.land/x/std/log/mod")
      = some (jsStr "/home/u/.deno/deps/https/deno.land/x/std/log/mod") := by
  refine ⟨?_, ?_, by decide⟩
  · intro fuel fs denoDir m h1 h2
    simp [convertRemoteToLocalCache, h1, h2]
  · intro fuel fs denoDir m h
    rcases h with h | h <;> simp [convertRemoteToLocalCache, h]

/-- C8 witness: the identity case on a relative specifier and the mapping case
on a remote one, at concrete inputs. -/
theorem C8_witness :
    convertRemoteToLocalCache 0 emptyFS (jsStr "/d") (jsStr "./mod") = some (jsStr "./mod")
      ∧ convertRemoteToLocalCache 1 emptyFS (jsStr "/d") (jsStr "http://a")
        = fallbackHeader 1 emptyFS (jsStr "/d")
            (pathResolveDeps (jsStr "/d")
              (jsReplaceFirst (jsStr "://") (jsStr "/") (jsStr "http://a"))) :=
  ⟨C8_remote_cache_mapper.1 0 emptyFS (jsStr "/d") (jsStr "./mod") (by decide) (by decide),
   C8_remote_cache_mapper.2.1 1 emptyFS (jsStr "/d") (jsStr "http://a") (Or.inl (by decide))⟩

/-- C10: the claim says that for every sidecar whose `redirect_to` is not
remote, `fallbackHeader` returns the normalized target verbatim.  Not on every
such sidecar: with the sidecar of `queryBugFS`, whose non-remote `redirect_to`
is `"mod.js?x=1"`, the specifier normalizer diverges on the target, so
`fallbackHeader` never returns at all. -/
theorem C10_counterexample :
    fallbackHeaderDiverges queryBugFS (jsStr "/d") (jsStr "/d/deps/https/h/x") := by
  intro fuel
  cases fuel with
  | zero => rfl
  | succ n => rfl

/-- C10 (amended): for every sidecar whose `redirect_to` does not begin with
`"http://"` or `"https://"` and on which the specifier normalizer terminates,
`fallbackHeader` returns `stripExtNameDotTs redirect_to` verbatim - the target
is not mapped under `<denoDir>/deps/`, its existence is never consulted (the
filesystem beyond the two checked paths is arbitrary and no fuel is consumed),
and no further redirect recursion occurs. -/
theorem C10_non_remote_redirect_verbatim :
    ∀ (fs : FileSystem) (denoDir p : JSString) (fuel : Nat) (r : JSString),
      fs.existsSync (validPathOf p) = false →
      fs.existsSync (validPathOf p ++ jsStr ".headers.json") = true →
      jsStartsWith (fs.headersAt (validPathOf p ++ jsStr ".headers.json")).redirect_to
          (jsStr "http://") = false →
      jsStartsWith (fs.headersAt (validPathOf p ++ jsStr ".headers.json")).redirect_to
          (jsStr "https://") = false →
      stripExtNameDotTs (fs.headersAt (validPathOf p ++ jsStr ".headers.json")).redirect_to
          = some r →
      fallbackHeader (fuel + 1) fs denoDir p = some r := by
  intro fs denoDir p fuel r h1 h2 h3 h4 h5
  have hpre := stripExtNameDotTs_prefix h5
  have hr1 : jsStartsWith r (jsStr "http://") = false := jsStartsWith_false_of_prefix hpre h3
  have hr2 : jsStartsWith r (jsStr "https://") = false := jsStartsWith_false_of_prefix hpre h4
  simp [fallbackHeader, h1, h2, h5, hr1, hr2]

/-- C10 witness: a sidecar redirecting `/p` to the local `./x.ts`; the
resolver returns the normalized `./x` even though no file exists there. -/
theorem C10_witness :
    fallbackHeader 1 localRedirectFS (jsStr "/d") (jsStr "/p") = some (jsStr "./x") :=
  C10_non_remote_redirect_verbatim localRedirectFS (jsStr "/d") (jsStr "/p") 0
    (jsStr "./x") (by decide) (by decide) (by decide) (by decide) (by decide)

/-- C5: the import-map substitution function scans the map's keys in document
order; the first key that is a literal prefix of the specifier wins (no
longest-prefix preference), that prefix is replaced by the key's value with
the remainder kept verbatim, and a specifier matching no key passes through
unchanged; concretely key `"std/"` with value `"https://deno.land/std/"`
turns `"std/http/mod.ts"` into `"https://deno.land/std/http/mod.ts"`. -/
theorem C5_import_map_first_prefix_wins :
    (∀ (imports : List (JSString × JSString)) (m : JSString),
        (∀ kv ∈ imports, jsStartsWith m kv.1 = false) →
        transformFromImportMap imports m = m)
    ∧ (∀ (imports pre suf : List (JSString × JSString)) (m k v : JSString),
        imports = pre ++ (k, v) :: suf →
        (∀ kv ∈ pre, jsStartsWith m kv.1 = false) →
        jsStartsWith m k = true →
        transformFromImportMap imports m = v ++ m.drop k.length)
    ∧ transformFromImportMap [(jsStr "std/", jsStr "https://deno.land/std/")]
        (jsStr "std/http/mod.ts") = jsStr "https://deno.land/std/http/mod.ts" := by
  refine ⟨?_, ?_, by decide⟩
  · intro imports m h
    exact importMapScan_no_match m imports h
  · intro imports pre suf m k v heq hpre hk
    rw [transformFromImportMap, heq]
    exact importMapScan_first_match m k v hk pre suf hpre

/-- C5 witness: a specifier matching no key passes through; with two keys in
document order where the first (`"s/"`) and a longer later one (`"s/t/"`) both
match, the first wins - `"s/t/x"` becomes `"A/t/x"`, not `"B/x"`. -/
theorem C5_witness :
    transformFromImportMap [(jsStr "a/", jsStr "X/")] (jsStr "lib/m") = jsStr "lib/m"
      ∧ transformFromImportMap [(jsStr "s/", jsStr "A/"), (jsStr "s/t/", jsStr "B/")]
          (jsStr "s/t/x") = jsStr "A/" ++ (jsStr "s/t/x").drop (jsStr "s/").length :=
  ⟨C5_import_map_first_prefix_wins.1 [(jsStr "a/", jsStr "X/")] (jsStr "lib/m") (by decide),
   C5_import_map_first_prefix_wins.2.1 [(jsStr "s/", jsStr "A/"), (jsStr "s/t/", jsStr "B/")]
     [] [(jsStr "s/t/", jsStr "B/")] (jsStr "s/t/x") (jsStr "s/") (jsStr "A/") rfl
     (by decide) (by decide)⟩

/-- C6: the claim says `getImportMap` fails with `ParseError` when the content
lacks an `imports` object.  It does not: the code casts the parse result
without validation - with a file whose content parses to valid JSON lacking an
`imports` member, `getImportMap` succeeds and caches the document. -/
theorem C6_counterexample :
    noImportsEnv.parseImportMap (noImportsEnv.readFile (jsStr "im.json")) = some ⟨none⟩
      ∧ getImportMap noImportsEnv ⟨[], 0⟩ (jsStr "im.json")
        = Except.ok (0, ⟨none⟩,
            ⟨[(importMapCacheKey (jsStr "im.json") (jsStr "1"), (0, ⟨none⟩))], 1⟩) :=
  ⟨rfl, rfl⟩

/-- C6 (amended): `getImportMap` fails with `NotFoundError` when the file at
the given path is missing and with `ParseError` when its content is not valid
JSON; but it performs no shape validation: any successfully parsed document -
with or without an `imports` object - is returned (and cached) as is. -/
theorem C6_load_error_contract :
    (∀ (env : ImportMapEnv) (st : ImportMapCacheState) (p : JSString),
        env.statMtime p = none →
        getImportMap env st p = Except.error ImportMapError.NotFoundError)
    ∧ (∀ (env : ImportMapEnv) (st : ImportMapCacheState) (p mtime : JSString),
        env.statMtime p = some mtime →
        List.lookup (importMapCacheKey p mtime) st.entries = none →
        env.parseImportMap (env.readFile p) = none →
        getImportMap env st p = Except.error ImportMapError.ParseError)
    ∧ (∀ (env : ImportMapEnv) (st : ImportMapCacheState) (p mtime : JSString)
          (parsed : ParsedImportMap),
        env.statMtime p = some mtime →
        List.lookup (importMapCacheKey p mtime) st.entries = none →
        env.parseImportMap (env.readFile p) = some parsed →
        getImportMap env st p = Except.ok (st.nextId, parsed,
          ⟨st.entries ++ [(importMapCacheKey p mtime, (st.nextId, parsed))],
           st.nextId + 1⟩)) := by
  refine ⟨?_, ?_, ?_⟩
  · intro env st p h
    simp [getImportMap, h]
  · intro env st p mtime h1 h2 h3
    simp [getImportMap, h1, h2, h3]
  · intro env st p mtime parsed h1 h2 h3
    simp [getImportMap, h1, h2, h3]

/-- C6 witness: the three contract cases at concrete environments - missing
file, invalid JSON, and a valid parse (here of a document without an
`imports` member) returned as is. -/
theorem C6_witness :
    getImportMap missingFileEnv ⟨[], 0⟩ (jsStr "x")
        = Except.error ImportMapError.NotFoundError
      ∧ getImportMap badJsonEnv ⟨[], 0⟩ (jsStr "x")
        = Except.error ImportMapError.ParseError
      ∧ getImportMap noImportsEnv ⟨[], 0⟩ (jsStr "x")
        = Except.ok (0, ⟨none⟩,
            ⟨[(importMapCacheKey (jsStr "x") (jsStr "1"), (0, ⟨none⟩))], 1⟩) :=
  ⟨C6_load_error_contract.1 missingFileEnv ⟨[], 0⟩ (jsStr "x") rfl,
   C6_load_error_contract.2.1 badJsonEnv ⟨[], 0⟩ (jsStr "x") (jsStr "1") rfl rfl rfl,
   C6_load_error_contract.2.2 noImportsEnv ⟨[], 0⟩ (jsStr "x") (jsStr "1") ⟨none⟩ rfl rfl rfl⟩

/-- C9: import-map cache correctness.  A first (uncached) load parses and
caches the document under the `path-mtime` key; a second load with the same
modification time serves the identical object (same allocation tag, so
reference-equal) without parsing (the allocation counter and the state are
unchanged); a load after only the modification time changed misses the cache
and parses freshly - a new, distinct tag and an independent new entry, with
the old entry still present - and, generally, `getImportMap` never removes
entries. -/
theorem C9_import_map_cache_correctness :
    (∀ (env : ImportMapEnv) (st : ImportMapCacheState) (p mtime : JSString)
        (parsed : ParsedImportMap),
      env.statMtime p = some mtime →
      List.lookup (importMapCacheKey p mtime) st.entries = none →
      env.parseImportMap (env.readFile p) = some parsed →
      getImportMap env st p = Except.ok (st.nextId, parsed,
          ⟨st.entries ++ [(importMapCacheKey p mtime, (st.nextId, parsed))], st.nextId + 1⟩)
      ∧ getImportMap env
          ⟨st.entries ++ [(importMapCacheKey p mtime, (st.nextId, parsed))], st.nextId + 1⟩ p
        = Except.ok (st.nextId, parsed,
            ⟨st.entries ++ [(importMapCacheKey p mtime, (st.nextId, parsed))], st.nextId + 1⟩)
      ∧ (∀ (env2 : ImportMapEnv) (mtime2 : JSString),
          env2.statMtime p = some mtime2 → mtime2 ≠ mtime →
          env2.readFile = env.readFile → env2.parseImportMap = env.parseImportMap →
          List.lookup (importMapCacheKey p mtime2) st.entries = none →
          getImportMap env2
              ⟨st.entries ++ [(importMapCacheKey p mtime, (st.nextId, parsed))],
               st.nextId + 1⟩ p
            = Except.ok (st.nextId + 1, parsed,
                ⟨(st.entries ++ [(importMapCacheKey p mtime, (st.nextId, parsed))])
                    ++ [(importMapCacheKey p mtime2, (st.nextId + 1, parsed))],
                 st.nextId + 2⟩)
            ∧ st.nextId + 1 ≠ st.nextId
            ∧ (importMapCacheKey p mtime, (st.nextId, parsed)) ∈
                (st.entries ++ [(importMapCacheKey p mtime, (st.nextId, parsed))])
                    ++ [(importMapCacheKey p mtime2, (st.nextId + 1, parsed))]))
    ∧ (∀ (env : ImportMapEnv) (st : ImportMapCacheState) (p : JSString) (i : Nat)
          (v : ParsedImportMap) (st2 : ImportMapCacheState),
        getImportMap env st p = Except.ok (i, v, st2) →
        ∀ e ∈ st.entries, e ∈ st2.entries) := by
  constructor
  · intro env st p mtime parsed h1 h2 h3
    refine ⟨by simp [getImportMap, h1, h2, h3], ?_, ?_⟩
    · have hl : List.lookup (importMapCacheKey p mtime)
          (st.entries ++ [(importMapCacheKey p mtime, (st.nextId, parsed))])
          = some (st.nextId, parsed) := by
        rw [lookup_append_of_none _ _ h2, lookup_cons_self]
      simp [getImportMap, h1, hl]
    · intro env2 mtime2 h4 hmt h6 h7 h5
      have hkey : importMapCacheKey p mtime2 ≠ importMapCacheKey p mtime :=
        fun hc => hmt (importMapCacheKey_inj hc)
      have hl2 : List.lookup (importMapCacheKey p mtime2)
          (st.entries ++ [(importMapCacheKey p mtime, (st.nextId, parsed))]) = none := by
        rw [lookup_append_of_none _ _ h5, lookup_cons_ne hkey]
        rfl
      have hp2 : env2.parseImportMap (env2.readFile p) = some parsed := by
        rw [h6, h7]; exact h3
      refine ⟨by simp [getImportMap, h4, hl2, hp2], by omega, ?_⟩
      exact List.mem_append_left _ (List.mem_append_right _ (List.mem_cons_self _ _))
  · intro env st p i v st2 h e he
    unfold getImportMap at h
    split at h
    · exact absurd h (by simp)
    · split at h
      · simp only [Except.ok.injEq, Prod.mk.injEq] at h
        obtain ⟨-, -, hst⟩ := h
        exact hst ▸ he
      · split at h
        · exact absurd h (by simp)
        · simp only [Except.ok.injEq, Prod.mk.injEq] at h
          obtain ⟨-, -, hst⟩ := h
          exact hst ▸ List.mem_append_left _ he

/-- C9 witness: the file `a.json` with mtime `100` is loaded twice - the
second load returns the tag-`0` object from the cache with the state
unchanged - and then, after touching the file (mtime `200`, identical
content), loaded again: a freshly parsed tag-`1` object is cached in a new
entry while the old one survives. -/
theorem C9_witness :
    getImportMap mtime100Env ⟨[], 0⟩ (jsStr "a.json")
        = Except.ok (0, ⟨some []⟩,
            ⟨[(importMapCacheKey (jsStr "a.json") (jsStr "100"), (0, ⟨some []⟩))], 1⟩)
      ∧ getImportMap mtime100Env
          ⟨[(importMapCacheKey (jsStr "a.json") (jsStr "100"), (0, ⟨some []⟩))], 1⟩
          (jsStr "a.json")
        = Except.ok (0, ⟨some []⟩,
            ⟨[(importMapCacheKey (jsStr "a.json") (jsStr "100"), (0, ⟨some []⟩))], 1⟩)
      ∧ getImportMap mtime200Env
          ⟨[(importMapCacheKey (jsStr "a.json") (jsStr "100"), (0, ⟨some []⟩))], 1⟩
          (jsStr "a.json")
        = Except.ok (1, ⟨some []⟩,
            ⟨[(importMapCacheKey (jsStr "a.json") (jsStr "100"), (0, ⟨some []⟩)),
              (importMapCacheKey (jsStr "a.json") (jsStr "200"), (1, ⟨some []⟩))], 2⟩) :=
  ⟨(C9_import_map_cache_correctness.1 mtime100Env ⟨[], 0⟩ (jsStr "a.json") (jsStr "100")
      ⟨some []⟩ rfl rfl rfl).1,
   (C9_import_map_cache_correctness.1 mtime100Env ⟨[], 0⟩ (jsStr "a.json") (jsStr "100")
      ⟨some []⟩ rfl rfl rfl).2.1,
   ((C9_import_map_cache_correctness.1 mtime100Env ⟨[], 0⟩ (jsStr "a.json") (jsStr "100")
      ⟨some []⟩ rfl rfl rfl).2.2 mtime200Env (jsStr "200") rfl (by decide) rfl rfl rfl).1⟩
